import Mathlib

/-!
# Verification of the acq4-autopatch patch-protocol controllers

Shallow embedding of `src/acq4_autopatch/protocols/task_runner.py`,
`task_runner_with_recalibration.py` and `task_runner_2P.py`.

Conventions of the embedding:

* Machine floats are modelled by `FVal` (a rational value or a non-finite
  token); positions are `Vec3F` (float-valued, used where `np.isfinite`
  matters) or `Vec3` (plain rational 3-vectors, used in the aligner
  arithmetic).  Rational constants are written with `mkRat` so that closed
  instances evaluate by kernel reduction; e.g. `mkRat 3 1000000` is the
  3 µm threshold `3e-6` (all lengths are in meters, as in the source).
* Python exceptions are values of `Exc`; fallible code returns `Except`.
  The bare `except:` of `runPatchProtocol` catches every exception
  uniformly, so one exception type suffices (cancellation via `checkStop`
  and device-operation failures surface as `Exc` values through the same
  channel).
* Side effects (status updates, device commands, motion commands, waits)
  are recorded in an explicit `Action` trace returned next to the result.
* The unbounded blocking loops are driven by the finite list of events /
  measurements the environment actually delivers; a poll loop whose event
  list runs out is "still blocked", encoded as the result `Except.ok none`.
* `np.linalg.norm(targetDiff) > c` (with `c ≥ 0`) is embedded as the
  equivalent comparison of squares `targetDiffSq > c*c`, keeping every
  definition executable over `ℚ`; the lemma `sq_compare_models_norm`
  justifies the equivalence over `ℝ`.
-/

namespace Autopatch

/-! ## Float values and vectors -/

/-- A machine float: either a finite rational value or one of the
non-finite IEEE tokens.  `np.isfinite` is `FVal.isFinite`. -/
inductive FVal where
  | fin : ℚ → FVal
  | nan : FVal
  | posInf : FVal
  | negInf : FVal
deriving DecidableEq, Repr

def FVal.isFinite : FVal → Bool
  | .fin _ => true
  | _ => false

/-- IEEE-754 addition on the embedded floats (NaN dominates; opposite
infinities give NaN). -/
def FVal.add : FVal → FVal → FVal
  | .fin a, .fin b => .fin (a + b)
  | .nan, _ => .nan
  | _, .nan => .nan
  | .posInf, .negInf => .nan
  | .negInf, .posInf => .nan
  | .posInf, _ => .posInf
  | _, .posInf => .posInf
  | .negInf, _ => .negInf
  | _, .negInf => .negInf

/-- A 3-component float vector (a row of `np.array([x, y, z])`). -/
structure Vec3F where
  x : FVal
  y : FVal
  z : FVal
deriving DecidableEq, Repr

/-- Embeds `np.all(np.isfinite(v))`. -/
def Vec3F.allFinite (v : Vec3F) : Bool :=
  v.x.isFinite && v.y.isFinite && v.z.isFinite

/-- Componentwise vector addition, `np.array(a) + np.array(b)`. -/
def Vec3F.add (a b : Vec3F) : Vec3F :=
  ⟨a.x.add b.x, a.y.add b.y, a.z.add b.z⟩

/-- The all-finite vector `np.array([q, q, q])`. -/
def vconstF (q : ℚ) : Vec3F := ⟨.fin q, .fin q, .fin q⟩

/-- A plain rational 3-vector, used for the aligner arithmetic where all
quantities are finite. -/
structure Vec3 where
  x : ℚ
  y : ℚ
  z : ℚ
deriving DecidableEq, Repr

/-- Componentwise subtraction, `np.array(a) - np.array(b)`. -/
def Vec3.sub (a b : Vec3) : Vec3 := ⟨a.x - b.x, a.y - b.y, a.z - b.z⟩

/-! ## Exceptions, actions, state events -/

/-- A Python exception value (identified by its message). -/
structure Exc where
  msg : String
deriving DecidableEq, Repr

/-- The `Exception("No valid target position for this attempt ...")` raised by
every `patchCell` variant on a non-finite target. -/
def invalidTargetExc : Exc :=
  ⟨"No valid target position for this attempt (probably automatic recalibration failed)"⟩

/-- The whole-cell failure exception, an f-string interpolating the final state name. -/
def wholeCellExc (stateName : String) : Exc :=
  ⟨"Failed to reach whole cell state (ended at " ++ stateName ++ ")."⟩

/-- One observable effect of the controller.  `stateWaitCall t d` records a
`state.wait(timeout=t)` call; `timedOut = true` means it raised
`state.Timeout`, `false` means it returned (or raised the state's own
failure, which then propagates as an `Exc`). -/
inductive Action where
  | setStatus (s : String)
  | setState (s : String)
  | sleep (seconds : ℚ)
  | setTarget (p : Vec3F)
  | moveToGlobal (p : Vec3F) (speed : String)
  | goApproachTarget (speed : String)
  | moveCenterToGlobal (p : Vec3F) (speed : String)
  | checkStop
  | stateWaitCall (timeout : ℚ) (timedOut : Bool)
  | autoWholeCellCompensate (cp ra : ℚ)
  | acquireLock
  | configureCamera
  | runProtocol
  | swapPipette
  | cleanPipette
deriving DecidableEq, Repr

/-- Actions that command motion or change the device state (the effects
claim C9 requires to be absent before the target-validity check). -/
def Action.isMotionOrDeviceState : Action → Bool
  | .setState _ => true
  | .setTarget _ => true
  | .moveToGlobal _ _ => true
  | .goApproachTarget _ => true
  | .moveCenterToGlobal _ _ => true
  | _ => false

/-- Actions belonging to the locked recording phase of
`runPatchProtocol`: the stage/camera lock acquisition and the recording
calls (`configureCamera`, `runProtocol`). -/
def Action.isRecordingPhase : Action → Bool
  | .acquireLock => true
  | .configureCamera => true
  | .runProtocol => true
  | _ => false

/-- One state-change notification popped from the state queue, together
with the behaviour of its own completion wait: `timeouts` is the number of
`state.Timeout` exceptions `state.wait(timeout=0.2)` raises before the
wait resolves, and `waitResult` is how it finally resolves (`.ok` or the
state's failure exception). -/
structure StateEvent where
  stateName : String
  timeouts : Nat
  waitResult : Except Exc Unit

/-! ## The state queue (`queue.Queue` + `clearStateQueue`) -/

/-- The FIFO state queue as seen by its single consumer: the list of
pending events, oldest first; `get` pops the head. -/
def queuePop (q : List StateEvent) : Option StateEvent := q.head?

/-- Embeds `clearStateQueue` (task_runner.py lines 137-140):
`while not self.stateQueue.empty(): self.stateQueue.get(timeout=0)` —
each loop iteration removes the oldest pending event. -/
def clearStateQueue : List StateEvent → List StateEvent
  | [] => []
  | _ :: rest => clearStateQueue rest

/-- Number of `get` calls (= removed events) a `clearStateQueue` run
performs on a queue. -/
def clearStateQueueGets : List StateEvent → Nat
  | [] => 0
  | _ :: rest => clearStateQueueGets rest + 1

/-! ## Branch selection in the cell-detect polling loop -/

/-- Python substring containment `sub in whole` on strings, checked at
every offset of `whole` (the empty string is a substring of anything). -/
def listContainsSub (whole sub : List Char) : Bool :=
  match whole with
  | [] => sub.isEmpty
  | _ :: rest => decide (whole.take sub.length = sub) || listContainsSub rest sub

/-- Python's `sub in whole` for strings. -/
def pyInString (sub whole : String) : Bool := listContainsSub whole.toList sub.toList

/-- The three ways the cell-detect polling loop can treat a popped state. -/
inductive DetectBranch where
  | failureExit
  | successExit
  | otherState
deriving DecidableEq, Repr

/-- Branch taken by the polling loop for a popped state name
(task_runner.py lines 113-124, identical in the other variants):
`state.stateName in ("fouled", "broken")` is tuple membership, but
`state.stateName in ("whole cell")` is membership in the *string*
`"whole cell"` — the parentheses do not make a tuple — i.e. Python
substring containment. -/
def detectBranch (name : String) : DetectBranch :=
  if name = "fouled" || name = "broken" then .failureExit
  else if pyInString name "whole cell" then .successExit
  else .otherState

/-! ## The cell-detect polling loop -/

/-- Outcome of a `patchCell` run that returned normally. -/
inductive PatchOutcome where
  | fouledOrBroken
  | wholeCell
deriving DecidableEq, Repr

/-- Python slice `l[-n:]`. -/
def lastN (n : Nat) (l : List ℚ) : List ℚ := l.drop (l.length - n)

/-- Embeds `np.mean` of a rational list (division by zero yields 0 in ℚ; the
code only takes the mean of non-empty test-pulse history slices). -/
def mean (l : List ℚ) : ℚ := l.sum / (l.length : ℚ)

/-- Environment for one `patchCell` run: the target position, the outcome
of the approach-move waits, the state events observed after
`clearStateQueue` (in arrival order), and the device's test-pulse
history channels. -/
structure PatchEnv where
  targetPos : Vec3F
  approachResult : Except Exc Unit
  events : List StateEvent
  capacitance : List ℚ
  peakResistance : List ℚ

/-- Trace of the `whole cell` success branch: settle 2 s, mean of the
last 100 samples of the `capacitance` and `peakResistance` test-pulse
channels, apply whole-cell compensation, settle 2 s. -/
def successTrace (env : PatchEnv) : List Action :=
  [.sleep 2,
   .autoWholeCellCompensate (mean (lastN 100 env.capacitance)) (mean (lastN 100 env.peakResistance)),
   .sleep 2]

/-- Trace of the nested completion wait on a non-terminal state
(task_runner.py lines 126-132): `state.wait(timeout=0.2)` repeatedly;
each `state.Timeout` is followed by `checkStop()`; the final call
resolves (its failure, if any, is the event's `waitResult`). -/
def innerWaitTrace (e : StateEvent) : List Action :=
  (List.replicate e.timeouts [Action.stateWaitCall (mkRat 1 5) true, Action.checkStop]).flatten
    ++ [Action.stateWaitCall (mkRat 1 5) false]

/-- The cell-detect polling loop of `TaskRunnerPatchProtocol.patchCell`
(task_runner.py lines 106-132) and `TaskRunnerPatchRecalProtocol.patchCell`
(task_runner_with_recalibration.py lines 103-129, identical): pop events
in order; `fouled`/`broken` exits as a failure outcome, a name contained
in `"whole cell"` runs the compensation branch and exits as success, any
other name updates the status and blocks on the state's own completion
signal before resuming the poll.  An exhausted event list means the loop
is still polling (`.ok none`). -/
def pollLoop (env : PatchEnv) : List StateEvent → Except Exc (Option PatchOutcome) × List Action
  | [] => (.ok none, [])
  | e :: rest =>
    match detectBranch e.stateName with
    | .failureExit => (.ok (some .fouledOrBroken), [.checkStop])
    | .successExit => (.ok (some .wholeCell), .checkStop :: successTrace env)
    | .otherState =>
      let tr := [Action.checkStop, Action.setStatus ("cell patching: " ++ e.stateName)]
        ++ innerWaitTrace e
      match e.waitResult with
      | .error ex => (.error ex, tr)
      | .ok _ =>
        let next := pollLoop env rest
        (next.1, tr ++ next.2)

/-- The cell-detect polling loop of the `TaskRunner2PPatchProtocol`
override (task_runner.py lines 328-346): same branch selection, but the
non-terminal branch only updates the status — there is no nested wait on
the state's completion signal. -/
def pollLoop2P (env : PatchEnv) : List StateEvent → Except Exc (Option PatchOutcome) × List Action
  | [] => (.ok none, [])
  | e :: rest =>
    match detectBranch e.stateName with
    | .failureExit => (.ok (some .fouledOrBroken), [.checkStop])
    | .successExit => (.ok (some .wholeCell), .checkStop :: successTrace env)
    | .otherState =>
      let next := pollLoop2P env rest
      (next.1, [Action.checkStop, Action.setStatus ("cell patching: " ++ e.stateName)] ++ next.2)

/-! ## The `patchCell` variants -/

/-- Embeds `TaskRunnerPatchProtocol.patchCell` (task_runner.py lines 77-132):
validate the target, set it, approach (100 µm above fast, then the slow
approach move), clear the state queue, start cell detection and poll. -/
def patchCellBase (env : PatchEnv) : Except Exc (Option PatchOutcome) × List Action :=
  if env.targetPos.allFinite then
    let moveActs : List Action :=
      [.setStatus "moving to target", .setTarget env.targetPos,
       .moveToGlobal (env.targetPos.add (vconstF (mkRat 1 10000))) "fast",
       .goApproachTarget "slow"]
    match env.approachResult with
    | .error e => (.error e, moveActs)
    | .ok _ =>
      let res := pollLoop env env.events
      (res.1, moveActs ++ [.setStatus "cell patching", .setState "cell detect"] ++ res.2)
  else (.error invalidTargetExc, [])

/-- Embeds `TaskRunnerPatchRecalProtocol.patchCell`
(task_runner_with_recalibration.py lines 86-129): validate the target,
set it, clear the state queue (the pipette is already above the cell),
start cell detection and poll — same loop as the base variant. -/
def patchCellRecal (env : PatchEnv) : Except Exc (Option PatchOutcome) × List Action :=
  if env.targetPos.allFinite then
    match env.approachResult with
    | .error e => (.error e, [.setStatus "moving to target", .setTarget env.targetPos])
    | .ok _ =>
      let res := pollLoop env env.events
      (res.1,
        [.setStatus "moving to target", .setTarget env.targetPos,
         .setStatus "cell patching", .setState "cell detect"] ++ res.2)
  else (.error invalidTargetExc, [])

/-- Embeds `TaskRunner2PPatchProtocol.patchCell` (task_runner.py lines 295-346):
validate the target, set it, approach (pipette 100 µm above fast, stage to
the 2P field-of-view offset, pipette 20 µm above slow), clear the state
queue, start cell detection and poll with the 2P loop (no nested wait). -/
def patchCell2P (env : PatchEnv) : Except Exc (Option PatchOutcome) × List Action :=
  if env.targetPos.allFinite then
    let moveActs : List Action :=
      [.setStatus "moving to target", .setTarget env.targetPos,
       .moveToGlobal (env.targetPos.add (vconstF (mkRat 1 10000))) "fast",
       .moveCenterToGlobal (env.targetPos.add ⟨.fin (mkRat (-1243) 100000000), .fin (mkRat (-1529) 10000000), .fin 0⟩) "slow",
       .moveToGlobal (env.targetPos.add ⟨.fin 0, .fin 0, .fin (mkRat 1 50000)⟩) "slow"]
    match env.approachResult with
    | .error e => (.error e, moveActs)
    | .ok _ =>
      let res := pollLoop2P env env.events
      (res.1, moveActs ++ [.setStatus "cell patching", .setState "cell detect"] ++ res.2)
  else (.error invalidTargetExc, [])

/-! ## `runPatchProtocol`: body, catch-all handler, cleanup -/

/-- Environment for one `runPatchProtocol` attempt.  `recalResult` is the
outcome of `recalibratePipette` (used by the recalibration variant only);
`finalStateName` is what `self.dev.getState().stateName` reports after
`patchCell` returns; `recordingResult` is the outcome of the locked
recording section; `brokenAtEnd`/`cleanAtEnd` are the `self.dev.broken` /
`self.dev.clean` flags read by the `finally` clause. -/
structure RunEnv where
  tipCleanAtStart : Bool
  patchEnv : PatchEnv
  recalResult : Except Exc Unit
  finalStateName : String
  recordingResult : Except Exc Unit
  brokenAtEnd : Bool
  cleanAtEnd : Bool

/-- Result of a completed `runPatchProtocol` attempt, mirroring the
sections of the try/except/finally statement.  `errorsRecorded` lists the
`pa.setError` writes in order; `runPatchProtocol` itself returns `None`
in Python, so the embedding produces no exception at top level. -/
structure RunResult where
  preClean : Bool
  bodyTrace : List Action
  bodyResult : Except Exc Unit
  errorsRecorded : List Exc
  cleanupTrace : List Action

/-- The attempt body inside the `try:` (lines 53-67 of task_runner.py;
lines 58-76 of the recalibration variant, which inserts
`recalibratePipette` + settle between the bath settle and `patchCell`).
`recalStep = none` for the base variant.  Returns `none` when the body
blocks forever inside the polling loop. -/
def attemptBodyWith (recalStep : Option (Except Exc Unit)) (finalStateName : String)
    (recordingResult : Except Exc Unit) (pc : Except Exc (Option PatchOutcome) × List Action) :
    Option (Except Exc Unit × List Action) :=
  let acts0 : List Action := [.setState "bath", .sleep 5]
  match recalStep with
  | some (.error e) => some (.error e, acts0)
  | _ =>
    let acts1 := match recalStep with
      | some _ => acts0 ++ [Action.sleep 5]
      | none => acts0
    match pc with
    | (.error e, ptr) => some (.error e, acts1 ++ ptr)
    | (.ok none, _) => none
    | (.ok (some _), ptr) =>
      let acts2 := acts1 ++ ptr
      if finalStateName ≠ "whole cell" then
        some (.error (wholeCellExc finalStateName), acts2)
      else
        let acts3 := acts2 ++ [Action.acquireLock, Action.setStatus "Waiting for stage/camera"]
        match recordingResult with
        | .error e => some (.error e, acts3)
        | .ok _ => some (.ok (), acts3 ++ [Action.configureCamera, Action.runProtocol])

/-- The `finally:` clause (lines 71-75): `if self.dev.broken:
self.swapPipette() elif not self.dev.clean: self.cleanPipette()`. -/
def cleanupTraceOf (broken clean : Bool) : List Action :=
  if broken then [.swapPipette]
  else if !clean then [.cleanPipette]
  else []

/-- Embeds `runPatchProtocol` around an arbitrary `patchCell` implementation:
optional pre-try cleaning, the guarded body, the bare `except:` that
records any body exception via `pa.setError` and re-raises nothing, and
the unconditional `finally:` cleanup. -/
def runPatchProtocolWith (recalStep : Option (Except Exc Unit))
    (pcFun : PatchEnv → Except Exc (Option PatchOutcome) × List Action)
    (env : RunEnv) : Option RunResult :=
  match attemptBodyWith recalStep env.finalStateName env.recordingResult (pcFun env.patchEnv) with
  | none => none
  | some (res, btr) =>
    some { preClean := !env.tipCleanAtStart
           bodyTrace := btr
           bodyResult := res
           errorsRecorded := match res with | .ok _ => [] | .error e => [e]
           cleanupTrace := cleanupTraceOf env.brokenAtEnd env.cleanAtEnd }

/-- Embeds `TaskRunnerPatchProtocol.runPatchProtocol` (task_runner.py lines 47-75). -/
def runPatchProtocolBase (env : RunEnv) : Option RunResult :=
  runPatchProtocolWith none patchCellBase env

/-- Embeds `TaskRunnerPatchRecalProtocol.runPatchProtocol`
(task_runner_with_recalibration.py lines 51-84). -/
def runPatchProtocolRecal (env : RunEnv) : Option RunResult :=
  runPatchProtocolWith (some env.recalResult) patchCellRecal env

/-! ## The closed-loop aligner (`getPipetteError`,
task_runner_with_recalibration.py lines 375-449) -/

/-- One iteration's measurements, as read from the hardware at the top of
the loop body: `camera.globalCenterPosition("roi")`,
`pipetteDevice.globalPosition()`, `tracker.measureTipPosition(...)` (tip
position and confidence/correlation score `perf`). -/
structure Measurement where
  cameraPos : Vec3
  reportedPos : Vec3
  measuredPos : Vec3
  perf : ℚ
deriving DecidableEq, Repr

/-- Embeds `focusError = abs(measuredPos[2] - cameraPos[2])`. -/
def focusErrorOf (m : Measurement) : ℚ := |m.measuredPos.z - m.cameraPos.z|

/-- Component x of `targetDiff = targetPos[:2] - measuredPos[:2]`. -/
def targetDiffX (target : Vec3) (m : Measurement) : ℚ := target.x - m.measuredPos.x

/-- Component y of `targetDiff = targetPos[:2] - measuredPos[:2]`. -/
def targetDiffY (target : Vec3) (m : Measurement) : ℚ := target.y - m.measuredPos.y

/-- Square of `targetError = np.linalg.norm(targetDiff)`; the code's
comparisons `targetError > c` are embedded as `targetErrSq > c*c`
(equivalent for `c ≥ 0`, see `sq_compare_models_norm`). -/
def targetErrSq (target : Vec3) (m : Measurement) : ℚ :=
  targetDiffX target m * targetDiffX target m + targetDiffY target m * targetDiffY target m

/-- A correction move scheduled by one aligner iteration. -/
inductive AlignMove where
  | cameraFocus (p : Vec3)
  | pipetteMove (p : Vec3)
deriving DecidableEq, Repr

/-- The focus-error threshold `3e-6` (3 µm). -/
def focusThreshold : ℚ := mkRat 3 1000000

/-- The squared in-loop lateral correction threshold `(1.5e-6)²`. -/
def correctThresholdSq : ℚ := mkRat 9 4000000000000

/-- The squared final lateral pass/fail threshold `(3e-6)²`. -/
def passThresholdSq : ℚ := mkRat 9 1000000000000

/-- The correction moves one loop iteration schedules (lines 421-431): a
camera-focus move to the measured tip z (camera x, y kept, pipette not
moved) when the focus error exceeds 3 µm, and a pipette move adding the
lateral target offset to the reported position (x, y only) when the
lateral target error exceeds 1.5 µm. -/
def iterMoves (target : Vec3) (m : Measurement) : List AlignMove :=
  (if focusErrorOf m > focusThreshold then
    [AlignMove.cameraFocus ⟨m.cameraPos.x, m.cameraPos.y, m.measuredPos.z⟩]
   else [])
  ++ (if targetErrSq target m > correctThresholdSq then
    [AlignMove.pipetteMove
      ⟨m.reportedPos.x + targetDiffX target m, m.reportedPos.y + targetDiffY target m,
       m.reportedPos.z⟩]
   else [])

/-- The per-iteration histories `perfVals`, `pipetteDiffVals`,
`focusErrVals`, `targetErrVals` (squared), plus the moves each executed
iteration scheduled. -/
structure AlignAcc where
  perfVals : List ℚ
  pipetteDiffVals : List Vec3
  focusErrVals : List ℚ
  targetErrSqVals : List ℚ
  movesPerIter : List (List AlignMove)

/-- Append one iteration's sample (lines 403-419) to the histories. -/
def alignStepAcc (target : Vec3) (m : Measurement) (acc : AlignAcc) : AlignAcc :=
  { perfVals := acc.perfVals ++ [m.perf]
    pipetteDiffVals := acc.pipetteDiffVals ++ [m.measuredPos.sub m.reportedPos]
    focusErrVals := acc.focusErrVals ++ [focusErrorOf m]
    targetErrSqVals := acc.targetErrSqVals ++ [targetErrSq target m]
    movesPerIter := acc.movesPerIter ++ [iterMoves target m] }

/-- The `for i in range(4)` loop (lines 393-440): measure (`ms i` is the
i-th hardware measurement), record the sample, schedule corrections; if
none were scheduled, `break`; otherwise wait for them and iterate. -/
def alignLoop (target : Vec3) (ms : Nat → Measurement) :
    Nat → Nat → AlignAcc → AlignAcc
  | 0, _, acc => acc
  | fuel + 1, i, acc =>
    let m := ms i
    let acc' := alignStepAcc target m acc
    if iterMoves target m = [] then acc'
    else alignLoop target ms fuel (i + 1) acc'

/-- The empty histories the loop starts from (lines 383-386). -/
def emptyAcc : AlignAcc := ⟨[], [], [], [], []⟩

/-- The histories `getPipetteError` has accumulated when the loop ends. -/
def getPipetteErrorRun (target : Vec3) (ms : Nat → Measurement) : AlignAcc :=
  alignLoop target ms 4 0 emptyAcc

/-- The post-loop pass/fail decision (line 443):
`focusErrVals[-1] > 3e-6 or targetErrVals[-1] > 3e-6 or perfVals[-1] < 0.5`
(the lateral comparison squared on both sides). -/
def calibrationFails (focusErrVals targetErrSqVals perfVals : List ℚ) : Bool :=
  decide (focusErrVals.getLastD 0 > focusThreshold)
  || decide (targetErrSqVals.getLastD 0 > passThresholdSq)
  || decide (perfVals.getLastD 0 < mkRat 1 2)

/-- The `RuntimeError` raised on a failed calibration, carrying the full
iteration histories interpolated into its message (lines 444-446). -/
structure CalibrationError where
  focusErrVals : List ℚ
  targetErrSqVals : List ℚ
  perfVals : List ℚ
deriving DecidableEq, Repr

/-- Embeds `getPipetteError` (lines 375-449): run the alignment loop, then raise
a calibration error from the last sample's metrics, or return the last
pipette offset `measuredPos - reportedPos` on success. -/
def getPipetteError (target : Vec3) (ms : Nat → Measurement) :
    Except CalibrationError Vec3 :=
  let acc := getPipetteErrorRun target ms
  if calibrationFails acc.focusErrVals acc.targetErrSqVals acc.perfVals then
    .error ⟨acc.focusErrVals, acc.targetErrSqVals, acc.perfVals⟩
  else
    .ok (acc.pipetteDiffVals.getLastD ⟨0, 0, 0⟩)

/-! ## Attribute model for the error-line visualization
(task_runner_with_recalibration.py lines 451-466) -/

/-- Modelled from the spec: `PatchProtocol.__init__` (file
`patch_protocol.py`, which is not under `src/`). Per spec §2 item 6 and
§4.4 the base class only holds the worker-thread and attempt-context
handles it is constructed with; nothing in the spec gives the base class
an error-line attribute. -/
def patchProtocolInitAttrs : List String := ["patchThread", "patchAttempt"]

/-- Instance attributes bound after `TaskRunnerPatchProtocol.__init__`
(task_runner.py lines 27-42). -/
def taskRunnerInitAttrs : List String :=
  patchProtocolInitAttrs ++ ["dev", "module", "stageCameraLock", "camera", "scope", "dh", "stateQueue"]

/-- Instance attributes bound after `TaskRunnerPatchRecalProtocol.__init__`
(task_runner_with_recalibration.py lines 32-49): the inherited set plus
`clickEvent` and `cameraMod`.  Note `line` is not among them. -/
def recalInitAttrs : List String :=
  taskRunnerInitAttrs ++ ["clickEvent", "cameraMod"]

/-- The AttributeError raised on reading the unbound line attribute. -/
def lineAttributeError : Exc := ⟨"AttributeError: no attribute line"⟩

/-- Embeds `_removeErrorLine` (lines 462-466) evaluated against the set of
currently bound instance attributes: its first statement reads
`self.line`, which raises `AttributeError` when `line` was never bound;
otherwise it completes (and leaves `line` bound, to `None`). -/
def removeErrorLineModel (attrs : List String) : Except Exc (List String) :=
  if attrs.contains "line" then .ok attrs else .error lineAttributeError

/-- Embeds `showErrorLine` → `_showErrorLine` (lines 451-460): the body first
calls `_removeErrorLine`, then binds `self.line` to the new line item. -/
def showErrorLineModel (attrs : List String) : Except Exc (List String) :=
  match removeErrorLineModel attrs with
  | .error e => .error e
  | .ok a => .ok (if a.contains "line" then a else a ++ ["line"])

/-! ## Concrete inputs used by the witness and counterexample theorems -/

/-- A `broken` notification whose completion wait would succeed at once. -/
def evBroken : StateEvent := ⟨"broken", 0, .ok ()⟩

/-- A non-terminal `seal` notification (one wait timeout, then success). -/
def evSeal : StateEvent := ⟨"seal", 0, .ok ()⟩

/-- A `whole cell` notification. -/
def evWholeCell : StateEvent := ⟨"whole cell", 0, .ok ()⟩

/-- An all-finite target position (the origin). -/
def tgtOK : Vec3F := ⟨.fin 0, .fin 0, .fin 0⟩

/-- A target position with a NaN x coordinate. -/
def tgtBad : Vec3F := ⟨.nan, .fin 0, .fin 0⟩

/-- A patch environment whose device reports `broken` during detection. -/
def penvBroken : PatchEnv := ⟨tgtOK, .ok (), [evBroken], [], []⟩

/-- A patch environment with a non-finite target position. -/
def penvBadTarget : PatchEnv := ⟨tgtBad, .ok (), [], [], []⟩

/-- A patch environment that reaches `whole cell` during detection. -/
def penvWhole : PatchEnv := ⟨tgtOK, .ok (), [evWholeCell], [1], [2]⟩

/-- A patch environment delivering only the non-terminal `seal` state. -/
def penvSeal : PatchEnv := ⟨tgtOK, .ok (), [evSeal], [], []⟩

/-- An attempt whose device breaks during cell detection and reports
`broken` afterwards (`broken` flag set, tip not clean). -/
def envBrokenRun : RunEnv := ⟨true, penvBroken, .ok (), "broken", .ok (), true, false⟩

/-- A successful attempt whose device ends neither broken nor dirty. -/
def envCleanUnbroken : RunEnv := ⟨true, penvWhole, .ok (), "whole cell", .ok (), false, true⟩

/-- An attempt whose body raises at the target-validity check. -/
def envErrRun : RunEnv := ⟨true, penvBadTarget, .ok (), "whole cell", .ok (), false, false⟩

/-- A perfectly aligned measurement: tip measured exactly at the reported
position and in focus over the target, full confidence. -/
def mPerfect : Measurement := ⟨⟨0, 0, 0⟩, ⟨0, 0, 0⟩, ⟨0, 0, 0⟩, 1⟩

/-- A measurement oracle returning `mPerfect` every iteration. -/
def msPerfect : Nat → Measurement := fun _ => mPerfect

/-- The origin as an aligner target. -/
def tgtV0 : Vec3 := ⟨0, 0, 0⟩

/-! ## Helper lemmas -/

/-- Draining the queue always empties it. -/
theorem clearStateQueue_eq_nil (q : List StateEvent) : clearStateQueue q = [] := by
  induction q with
  | nil => rfl
  | cons e rest ih => simpa [clearStateQueue] using ih

/-- Justification for embedding `np.linalg.norm(v) > c` as
`normSq v > c*c`: over the reals the two comparisons agree whenever
`c ≥ 0` and the squared norm is nonnegative. -/
theorem sq_compare_models_norm (s c : ℝ) (hc : 0 ≤ c) :
    c < Real.sqrt s ↔ c * c < s := by
  rw [show c * c = c ^ 2 by ring]
  exact Real.lt_sqrt hc

/-! ## Claim theorems -/

/-- Claim C7: after `clearStateQueue()` returns the queue is empty, so no
event pushed before the call is returned by any subsequent `get`: the
stream of events observable afterwards is exactly the later pushes `p`.
A second drain with no intervening pushes performs zero `get` calls and
leaves the queue unchanged (and a drain of an empty queue is a no-op). -/
theorem clearStateQueue_discards_history (q p : List StateEvent) :
    clearStateQueue q = []
    ∧ clearStateQueue q ++ p = p
    ∧ queuePop (clearStateQueue q ++ p) = queuePop p
    ∧ clearStateQueue (clearStateQueue q) = clearStateQueue q
    ∧ clearStateQueueGets (clearStateQueue q) = 0
    ∧ clearStateQueueGets ([] : List StateEvent) = 0 := by
  have h := clearStateQueue_eq_nil q
  refine ⟨h, by rw [h]; simp, by rw [h]; simp, by rw [h, clearStateQueue_eq_nil],
    by rw [h]; rfl, rfl⟩

/-- Claim C2, code evaluation at the failing input.  Because
`state.stateName in ("whole cell")` tests substring containment in the
string `"whole cell"` (the parentheses do not form a tuple), the popped
state name `"cell"` — and likewise `"whole"`, `"ell"` and the empty name —
takes the success branch even though it differs from `"whole cell"`,
contradicting the claim that only the exact name `"whole cell"` does; the
failure branch is exact, as claimed. -/
theorem detectBranch_substring_bug :
    detectBranch "cell" = DetectBranch.successExit
    ∧ "cell" ≠ "whole cell"
    ∧ detectBranch "whole" = DetectBranch.successExit
    ∧ detectBranch "ell" = DetectBranch.successExit
    ∧ detectBranch "" = DetectBranch.successExit
    ∧ detectBranch "whole cell" = DetectBranch.successExit
    ∧ detectBranch "fouled" = DetectBranch.failureExit
    ∧ detectBranch "broken" = DetectBranch.failureExit
    ∧ detectBranch "seal" = DetectBranch.otherState
    ∧ (pollLoop penvSeal [⟨"cell", 0, Except.ok ()⟩]).1
        = Except.ok (some PatchOutcome.wholeCell) := by
  refine ⟨by decide, by decide, by decide, by decide, by decide, by decide, by decide,
    by decide, by decide, rfl⟩

/-- Claim C9: when the target position has a non-finite coordinate, every
`patchCell` variant raises the invalid-target exception with an empty
action trace — before any motion command (`setTarget`, `_moveToGlobal`,
`goApproachTarget`, `moveCenterToGlobal`) or device state change. -/
theorem patchCell_invalid_target_guards (env : PatchEnv)
    (h : env.targetPos.allFinite = false) :
    patchCellBase env = (Except.error invalidTargetExc, [])
    ∧ patchCellRecal env = (Except.error invalidTargetExc, [])
    ∧ patchCell2P env = (Except.error invalidTargetExc, [])
    ∧ (∀ a ∈ (patchCellBase env).2, a.isMotionOrDeviceState = false)
    ∧ (∀ a ∈ (patchCellRecal env).2, a.isMotionOrDeviceState = false)
    ∧ (∀ a ∈ (patchCell2P env).2, a.isMotionOrDeviceState = false) := by
  refine ⟨by simp [patchCellBase, h], by simp [patchCellRecal, h], by simp [patchCell2P, h],
    ?_, ?_, ?_⟩ <;>
  · intro a ha
    simp only [patchCellBase, patchCellRecal, patchCell2P, h, Bool.false_eq_true,
      if_false] at ha
    simp at ha

/-- Witness for C9 at a concrete NaN-valued target. -/
theorem patchCell_invalid_target_guards_witness :
    penvBadTarget.targetPos.allFinite = false
    ∧ patchCellBase penvBadTarget = (Except.error invalidTargetExc, []) := by
  exact ⟨by decide, (patchCell_invalid_target_guards penvBadTarget (by decide)).1⟩

/-- Claim C10, code evaluation at the failing input.  The constructor of the
recalibration protocol never binds `self.line`, but the first
`showErrorLine` call of an attempt immediately calls `_removeErrorLine`,
whose first statement reads `self.line` — an `AttributeError` on a fresh
instance.  Once a line has been drawn (attribute bound), the call
completes. -/
theorem showErrorLine_first_call_raises :
    "line" ∉ recalInitAttrs
    ∧ showErrorLineModel recalInitAttrs = Except.error lineAttributeError
    ∧ showErrorLineModel (recalInitAttrs ++ ["line"])
        = Except.ok (recalInitAttrs ++ ["line"]) := by
  refine ⟨by decide, rfl, ?_⟩
  simp [showErrorLineModel, removeErrorLineModel]

/-- Structure of every completed `runPatchProtocol` attempt, for either
variant: the `finally` cleanup is exactly the swap-or-clean decision on
the device flags (independent of how the body ended), the terminal error
records exactly the body's exception (and nothing on success), and the
body trace is the trace the attempt body produced. -/
theorem runWith_spec (recalStep : Option (Except Exc Unit))
    (pcFun : PatchEnv → Except Exc (Option PatchOutcome) × List Action)
    (env : RunEnv) (r : RunResult)
    (h : runPatchProtocolWith recalStep pcFun env = some r) :
    r.cleanupTrace = cleanupTraceOf env.brokenAtEnd env.cleanAtEnd
    ∧ r.preClean = !env.tipCleanAtStart
    ∧ (∀ e, r.bodyResult = Except.error e → r.errorsRecorded = [e])
    ∧ (r.bodyResult = Except.ok () → r.errorsRecorded = [])
    ∧ attemptBodyWith recalStep env.finalStateName env.recordingResult (pcFun env.patchEnv)
        = some (r.bodyResult, r.bodyTrace) := by
  unfold runPatchProtocolWith at h
  cases habs : attemptBodyWith recalStep env.finalStateName env.recordingResult
      (pcFun env.patchEnv) with
  | none => rw [habs] at h; exact absurd h (by simp)
  | some v =>
    obtain ⟨res, btr⟩ := v
    rw [habs] at h
    simp only [Option.some.injEq] at h
    subst h
    refine ⟨rfl, rfl, ?_, ?_, rfl⟩
    · intro e he
      cases res with
      | ok u => exact absurd he (by simp)
      | error e' => simp at he ⊢; exact he
    · intro he
      cases res with
      | ok u => rfl
      | error e' => exact absurd he (by simp)

/-- Every action of a nested completion wait is a `state.wait` call or a
stop-request check. -/
theorem innerWaitTrace_mem (e : StateEvent) (a : Action) (ha : a ∈ innerWaitTrace e) :
    a = Action.stateWaitCall (mkRat 1 5) true ∨ a = Action.checkStop
    ∨ a = Action.stateWaitCall (mkRat 1 5) false := by
  simp only [innerWaitTrace, List.mem_append, List.mem_flatten] at ha
  rcases ha with ⟨l, hl, hal⟩ | ha
  · rw [List.eq_of_mem_replicate hl] at hal
    simp only [List.mem_cons, List.not_mem_nil, or_false] at hal
    rcases hal with h | h
    · exact Or.inl h
    · exact Or.inr (Or.inl h)
  · simp only [List.mem_singleton] at ha
    exact Or.inr (Or.inr ha)

/-- No action in a cell-detect polling-loop trace belongs to the locked
recording phase. -/
theorem pollLoop_no_recording (env : PatchEnv) (evs : List StateEvent) :
    ∀ a ∈ (pollLoop env evs).2, a.isRecordingPhase = false := by
  induction evs with
  | nil => intro a ha; simp [pollLoop] at ha
  | cons e rest ih =>
    intro a ha
    cases hb : detectBranch e.stateName with
    | failureExit =>
      simp [pollLoop, hb] at ha
      simp [ha, Action.isRecordingPhase]
    | successExit =>
      simp [pollLoop, hb, successTrace] at ha
      rcases ha with ha | ha | ha | ha <;> simp [ha, Action.isRecordingPhase]
    | otherState =>
      have hiw : ∀ b ∈ innerWaitTrace e, Action.isRecordingPhase b = false := by
        intro b hb'
        rcases innerWaitTrace_mem e b hb' with h | h | h <;>
          simp [h, Action.isRecordingPhase]
      cases hw : e.waitResult with
      | error ex =>
        have htr : (pollLoop env (e :: rest)).2
            = [Action.checkStop, Action.setStatus ("cell patching: " ++ e.stateName)]
              ++ innerWaitTrace e := by
          simp [pollLoop, hb, hw]
        rw [htr] at ha
        rcases List.mem_append.mp ha with h' | h'
        · simp only [List.mem_cons, List.not_mem_nil, or_false] at h'
          rcases h' with h' | h' <;> simp [h', Action.isRecordingPhase]
        · exact hiw a h'
      | ok u =>
        have htr : (pollLoop env (e :: rest)).2
            = ([Action.checkStop, Action.setStatus ("cell patching: " ++ e.stateName)]
              ++ innerWaitTrace e) ++ (pollLoop env rest).2 := by
          simp [pollLoop, hb, hw]
        rw [htr] at ha
        rcases List.mem_append.mp ha with h' | h'
        · rcases List.mem_append.mp h' with h'' | h''
          · simp only [List.mem_cons, List.not_mem_nil, or_false] at h''
            rcases h'' with h'' | h'' <;> simp [h'', Action.isRecordingPhase]
          · exact hiw a h''
        · exact ih a h'

/-- No action in a `patchCellBase` trace belongs to the locked recording
phase. -/
theorem patchCellBase_no_recording (env : PatchEnv) :
    ∀ a ∈ (patchCellBase env).2, a.isRecordingPhase = false := by
  intro a ha
  by_cases hfin : env.targetPos.allFinite = true
  · cases hap : env.approachResult with
    | error ex =>
      simp [patchCellBase, hfin, hap] at ha
      rcases ha with ha | ha | ha | ha <;> simp [ha, Action.isRecordingPhase]
    | ok u =>
      simp [patchCellBase, hfin, hap] at ha
      rcases ha with ha | ha | ha | ha | ha | ha | ha
      · simp [ha, Action.isRecordingPhase]
      · simp [ha, Action.isRecordingPhase]
      · simp [ha, Action.isRecordingPhase]
      · simp [ha, Action.isRecordingPhase]
      · simp [ha, Action.isRecordingPhase]
      · simp [ha, Action.isRecordingPhase]
      · exact pollLoop_no_recording env env.events a ha
  · have hfin' : env.targetPos.allFinite = false := by simpa using hfin
    simp [patchCellBase, hfin'] at ha

/-- Claim C1: for either `runPatchProtocol` variant, every completed
attempt returns normally (the embedding's result type carries no
exception at top level, mirroring the bare `except:`): whenever the body
ended with an exception `e` — from `setState("bath")` through the
recording phase, including cancellation, which surfaces through the same
channel — the terminal error records exactly `[e]`, a successful body
records no error, and the `finally` cleanup (swap-or-clean on the device
flags) is part of the result regardless of how the body ended. -/
theorem runPatchProtocol_catches_body_errors (env : RunEnv) :
    (∀ r, runPatchProtocolBase env = some r →
      r.cleanupTrace = cleanupTraceOf env.brokenAtEnd env.cleanAtEnd
      ∧ (∀ e, r.bodyResult = Except.error e → r.errorsRecorded = [e])
      ∧ (r.bodyResult = Except.ok () → r.errorsRecorded = []))
    ∧ (∀ r, runPatchProtocolRecal env = some r →
      r.cleanupTrace = cleanupTraceOf env.brokenAtEnd env.cleanAtEnd
      ∧ (∀ e, r.bodyResult = Except.error e → r.errorsRecorded = [e])
      ∧ (r.bodyResult = Except.ok () → r.errorsRecorded = [])) := by
  constructor <;> intro r h
  · obtain ⟨h1, -, h3, h4, -⟩ := runWith_spec _ _ _ _ h
    exact ⟨h1, h3, h4⟩
  · obtain ⟨h1, -, h3, h4, -⟩ := runWith_spec _ _ _ _ h
    exact ⟨h1, h3, h4⟩

/-- Witness for C1: an attempt whose body raises at the target-validity
check records exactly that exception and still runs the cleanup
decision. -/
theorem runPatchProtocol_catches_body_errors_witness :
    (runPatchProtocolBase envErrRun).map RunResult.errorsRecorded = some [invalidTargetExc]
    ∧ (runPatchProtocolBase envErrRun).map RunResult.cleanupTrace
        = some [Action.cleanPipette] := by
  have h := (runPatchProtocol_catches_body_errors envErrRun).1 _ rfl
  exact ⟨congrArg some (h.2.1 invalidTargetExc rfl), congrArg some h.1⟩

/-- Claim C4, counterexample.  A completed attempt whose device ends
neither broken nor dirty performs *neither* cleanup action, refuting
"performs exactly one of two mutually exclusive actions" as a universal
statement. -/
theorem cleanup_exactly_one_counterexample :
    (runPatchProtocolBase envCleanUnbroken).map RunResult.cleanupTrace = some []
    ∧ (runPatchProtocolBase envCleanUnbroken).map
        (fun r => decide (Action.swapPipette ∈ r.cleanupTrace)
          || decide (Action.cleanPipette ∈ r.cleanupTrace)) = some false := by
  exact ⟨rfl, rfl⟩

/-- Claim C4, amended.  The `finally` cleanup of every completed attempt
performs *at most* one of the two mutually exclusive actions, chosen
solely from the device flags (hence identically whether or not the body
failed early): a broken device always swaps and never cleans, an
unbroken dirty device cleans, and an unbroken clean device does neither.
A device observed `broken` (or `fouled`) during cell detection exits
that phase without raising. -/
theorem cleanup_swap_or_clean_policy (env : RunEnv) (r : RunResult)
    (h : runPatchProtocolBase env = some r) :
    r.cleanupTrace = cleanupTraceOf env.brokenAtEnd env.cleanAtEnd
    ∧ ¬(Action.swapPipette ∈ r.cleanupTrace ∧ Action.cleanPipette ∈ r.cleanupTrace)
    ∧ (env.brokenAtEnd = true →
        r.cleanupTrace = [Action.swapPipette] ∧ Action.cleanPipette ∉ r.cleanupTrace)
    ∧ (env.brokenAtEnd = false → env.cleanAtEnd = false →
        r.cleanupTrace = [Action.cleanPipette])
    ∧ (env.brokenAtEnd = false → env.cleanAtEnd = true → r.cleanupTrace = [])
    ∧ (∀ e rest, env.patchEnv.events = e :: rest →
        detectBranch e.stateName = DetectBranch.failureExit →
        env.patchEnv.targetPos.allFinite = true →
        env.patchEnv.approachResult = Except.ok () →
        (patchCellBase env.patchEnv).1 = Except.ok (some PatchOutcome.fouledOrBroken)) := by
  obtain ⟨h1, -, -, -, -⟩ := runWith_spec _ _ _ _ h
  rw [h1]
  refine ⟨rfl, ?_, ?_, ?_, ?_, ?_⟩
  · cases hb : env.brokenAtEnd <;> cases hc : env.cleanAtEnd <;>
      simp [cleanupTraceOf]
  · intro hb; simp [cleanupTraceOf, hb]
  · intro hb hc; simp [cleanupTraceOf, hb, hc]
  · intro hb hc; simp [cleanupTraceOf, hb, hc]
  · intro e rest hev hbr hfin hap
    simp [patchCellBase, hfin, hap, hev, pollLoop, hbr]

/-- Witness for C4 (amended) at a concrete broken attempt: cleanup is
exactly the pipette swap. -/
theorem cleanup_swap_or_clean_policy_witness :
    (runPatchProtocolBase envBrokenRun).map RunResult.cleanupTrace
      = some [Action.swapPipette] := by
  have h := (cleanup_swap_or_clean_policy envBrokenRun _ rfl).2.2.1 rfl
  exact congrArg some h.1

/-- Claim C5: when `patchCell` returns normally but `getState()` does not
report `whole cell`, the attempt records exactly one terminal error (the
whole-cell failure), and neither the stage/camera lock acquisition nor
the recording phase (`configureCamera`, `runProtocol`) appears anywhere
in the attempt's body or cleanup trace. -/
theorem runPatchProtocol_no_recording_without_whole_cell (env : RunEnv)
    (o : PatchOutcome) (ptr : List Action)
    (hstate : env.finalStateName ≠ "whole cell")
    (hpc : patchCellBase env.patchEnv = (Except.ok (some o), ptr)) :
    ∃ r, runPatchProtocolBase env = some r
      ∧ r.errorsRecorded = [wholeCellExc env.finalStateName]
      ∧ r.errorsRecorded.length = 1
      ∧ Action.acquireLock ∉ r.bodyTrace
      ∧ Action.configureCamera ∉ r.bodyTrace
      ∧ Action.runProtocol ∉ r.bodyTrace
      ∧ Action.acquireLock ∉ r.cleanupTrace
      ∧ Action.configureCamera ∉ r.cleanupTrace
      ∧ Action.runProtocol ∉ r.cleanupTrace := by
  have hbody : attemptBodyWith none env.finalStateName env.recordingResult
      (patchCellBase env.patchEnv)
      = some (Except.error (wholeCellExc env.finalStateName),
          [Action.setState "bath", Action.sleep 5] ++ ptr) := by
    rw [hpc]; simp [attemptBodyWith, hstate]
  have hrun : ∃ r, runPatchProtocolBase env = some r := by
    unfold runPatchProtocolBase runPatchProtocolWith
    rw [hbody]
    exact ⟨_, rfl⟩
  obtain ⟨r, hr⟩ := hrun
  obtain ⟨hclean, -, herrRec, -, hbodyEq⟩ := runWith_spec _ _ _ _ hr
  rw [hbody] at hbodyEq
  simp only [Option.some.injEq, Prod.mk.injEq] at hbodyEq
  obtain ⟨hres, htr⟩ := hbodyEq
  have herr := herrRec _ hres.symm
  have hnorec : ∀ a ∈ r.bodyTrace, a.isRecordingPhase = false := by
    intro a ha
    rw [← htr] at ha
    rcases List.mem_cons.mp ha with h' | h'
    · simp [h', Action.isRecordingPhase]
    rcases List.mem_cons.mp h' with h'' | h''
    · simp [h'', Action.isRecordingPhase]
    · have hp := patchCellBase_no_recording env.patchEnv a
      rw [hpc] at hp
      exact hp h''
  have hcleanmem : ∀ a ∈ r.cleanupTrace, a.isRecordingPhase = false := by
    intro a ha
    rw [hclean] at ha
    cases hb : env.brokenAtEnd <;> cases hc : env.cleanAtEnd <;>
      simp [cleanupTraceOf, hb, hc] at ha <;> simp [ha, Action.isRecordingPhase]
  refine ⟨r, hr, herr, by rw [herr]; rfl, ?_, ?_, ?_, ?_, ?_, ?_⟩ <;>
    (intro hmem) <;>
    first
      | exact absurd (hnorec _ hmem) (by simp [Action.isRecordingPhase])
      | exact absurd (hcleanmem _ hmem) (by simp [Action.isRecordingPhase])

/-- Witness for C5: a device reporting `broken` after cell detection
yields exactly one recorded whole-cell failure. -/
theorem runPatchProtocol_no_recording_without_whole_cell_witness :
    (runPatchProtocolBase envBrokenRun).map RunResult.errorsRecorded
      = some [wholeCellExc "broken"] := by
  obtain ⟨r, hr, he, -⟩ := runPatchProtocol_no_recording_without_whole_cell envBrokenRun
    PatchOutcome.fouledOrBroken ((patchCellBase penvBroken).2) (by decide) rfl
  rw [hr]
  exact congrArg some he

/-- In a nested completion wait, every timed-out `state.wait(0.2)` call is
immediately followed by a stop-request check. -/
theorem waitList_timeout_then_checkStop (n : Nat) :
    ∀ k, (List.flatten (List.replicate n
          [Action.stateWaitCall (mkRat 1 5) true, Action.checkStop])
        ++ [Action.stateWaitCall (mkRat 1 5) false]).get? k
        = some (Action.stateWaitCall (mkRat 1 5) true) →
      (List.flatten (List.replicate n
          [Action.stateWaitCall (mkRat 1 5) true, Action.checkStop])
        ++ [Action.stateWaitCall (mkRat 1 5) false]).get? (k + 1)
        = some Action.checkStop := by
  induction n with
  | zero =>
    intro k hk
    match k with
    | 0 => simp [List.get?] at hk
    | k + 1 => simp [List.get?] at hk
  | succ n ih =>
    intro k hk
    rw [List.replicate_succ, List.flatten_cons] at hk ⊢
    match k with
    | 0 => rfl
    | 1 => simp [List.get?] at hk
    | k + 2 => exact ih k hk

/-- Claim C8, counterexample.  On popping the non-terminal state `seal`,
the `TaskRunner2PPatchProtocol` polling loop (task_runner.py lines
328-346) updates the status and resumes the poll at once: its trace
contains no `state.wait` call at all, refuting the claim for that
variant; the base loop at the same input does block on the state's
completion signal. -/
theorem twoP_no_nested_wait_counterexample :
    detectBranch "seal" = DetectBranch.otherState
    ∧ (pollLoop2P penvSeal [evSeal]).2
        = [Action.checkStop, Action.setStatus "cell patching: seal"]
    ∧ Action.stateWaitCall (mkRat 1 5) true ∉ (pollLoop2P penvSeal [evSeal]).2
    ∧ Action.stateWaitCall (mkRat 1 5) false ∉ (pollLoop2P penvSeal [evSeal]).2
    ∧ (pollLoop penvSeal [evSeal]).2
        = [Action.checkStop, Action.setStatus "cell patching: seal",
           Action.stateWaitCall (mkRat 1 5) false] := by
  refine ⟨by decide, rfl, by decide, by decide, rfl⟩

/-- Claim C8, amended.  In the base and recalibration polling loops, a
popped state that reaches the fall-through branch (name not `fouled` or
`broken` and not a substring of `"whole cell"`) yields a status update
followed by the nested completion wait: `state.wait(0.2)` slices in which
every timeout is immediately followed by a stop-request check and whose
last call resolves the wait; the loop then resumes the poll (or
propagates the state's failure).  The `TaskRunner2PPatchProtocol`
override instead resumes the poll right after the status update, with no
wait on the state's completion signal. -/
theorem pollLoop_nested_wait_policy (env : PatchEnv) (e : StateEvent)
    (rest : List StateEvent)
    (hb : detectBranch e.stateName = DetectBranch.otherState) :
    ((pollLoop env (e :: rest)).2
        = ([Action.checkStop, Action.setStatus ("cell patching: " ++ e.stateName)]
            ++ innerWaitTrace e)
          ++ (match e.waitResult with
              | Except.ok _ => (pollLoop env rest).2
              | Except.error _ => []))
    ∧ ((pollLoop env (e :: rest)).1
        = match e.waitResult with
          | Except.ok _ => (pollLoop env rest).1
          | Except.error ex => Except.error ex)
    ∧ (∀ k, (innerWaitTrace e).get? k = some (Action.stateWaitCall (mkRat 1 5) true) →
        (innerWaitTrace e).get? (k + 1) = some Action.checkStop)
    ∧ (innerWaitTrace e).getLast? = some (Action.stateWaitCall (mkRat 1 5) false)
    ∧ ((pollLoop2P env (e :: rest)).2
        = [Action.checkStop, Action.setStatus ("cell patching: " ++ e.stateName)]
          ++ (pollLoop2P env rest).2)
    ∧ (pollLoop2P env (e :: rest)).1 = (pollLoop2P env rest).1 := by
  refine ⟨?_, ?_, ?_, ?_, ?_, ?_⟩
  · cases hw : e.waitResult <;> simp [pollLoop, hb, hw]
  · cases hw : e.waitResult <;> simp [pollLoop, hb, hw]
  · exact waitList_timeout_then_checkStop e.timeouts
  · exact List.getLast?_concat _
  · simp [pollLoop2P, hb]
  · simp [pollLoop2P, hb]

/-- Witness for C8 (amended) at the concrete `seal` event. -/
theorem pollLoop_nested_wait_policy_witness :
    (pollLoop penvSeal [evSeal]).2
      = ([Action.checkStop, Action.setStatus "cell patching: seal"]
          ++ innerWaitTrace evSeal)
        ++ (pollLoop penvSeal ([] : List StateEvent)).2 := by
  have h := (pollLoop_nested_wait_policy penvSeal evSeal [] (by decide)).1
  exact h

/-- Claim C3: after the alignment loop ends, `getPipetteError` raises a
calibration error — carrying the full per-iteration focus-error,
target-error and confidence histories — exactly when the last sample's
focus error exceeds 3 µm, or its (squared) lateral target error exceeds
(3 µm)², or its confidence score is below 1/2; the decision ignores all
earlier samples, and a last confidence of 3/10 fails unconditionally. -/
theorem getPipetteError_last_sample_decides (f t p : List ℚ) (a b c : ℚ) :
    (calibrationFails (f ++ [a]) (t ++ [b]) (p ++ [c]) = true ↔
      (focusThreshold < a ∨ passThresholdSq < b ∨ c < mkRat 1 2))
    ∧ calibrationFails (f ++ [a]) (t ++ [b]) (p ++ [c]) = calibrationFails [a] [b] [c]
    ∧ (c = mkRat 3 10 → calibrationFails (f ++ [a]) (t ++ [b]) (p ++ [c]) = true)
    ∧ (∀ (target : Vec3) (ms : Nat → Measurement),
        calibrationFails (getPipetteErrorRun target ms).focusErrVals
            (getPipetteErrorRun target ms).targetErrSqVals
            (getPipetteErrorRun target ms).perfVals = true
        ↔ getPipetteError target ms
            = Except.error ⟨(getPipetteErrorRun target ms).focusErrVals,
                (getPipetteErrorRun target ms).targetErrSqVals,
                (getPipetteErrorRun target ms).perfVals⟩) := by
  have hiff : calibrationFails (f ++ [a]) (t ++ [b]) (p ++ [c]) = true ↔
      (focusThreshold < a ∨ passThresholdSq < b ∨ c < mkRat 1 2) := by
    simp [calibrationFails, List.getLastD_concat, or_assoc]
  refine ⟨hiff, ?_, ?_, ?_⟩
  · simp [calibrationFails, List.getLastD_concat]
  · intro hc
    subst hc
    exact hiff.mpr (Or.inr (Or.inr (by decide)))
  · intro target ms
    by_cases hfail : calibrationFails (getPipetteErrorRun target ms).focusErrVals
        (getPipetteErrorRun target ms).targetErrSqVals
        (getPipetteErrorRun target ms).perfVals = true
    · simp [getPipetteError, hfail]
    · simp [getPipetteError, hfail]

/-- Witness for C3: a final confidence of 3/10 fails the calibration. -/
theorem getPipetteError_last_sample_decides_witness :
    calibrationFails [0] [0] [mkRat 3 10] = true := by
  have h := (getPipetteError_last_sample_decides [] [] [] 0 0 (mkRat 3 10)).2.2.1 rfl
  exact h

/-- Unfold `List.range (n+1)` at the front: the mapped list starts with
`f 0` followed by the shifted tail. -/
theorem range_succ_map_shift {α : Type} (f : Nat → α) (n : Nat) :
    (List.range (n + 1)).map f = f 0 :: (List.range n).map (fun j => f (j + 1)) := by
  rw [List.range_succ_eq_map, List.map_cons, List.map_map]
  exact congrArg (f 0 :: ·) (List.map_congr_left (fun a _ => rfl))

/-- Structure of the bounded alignment loop: starting from any
accumulator, it executes some `n ≤ fuel` further iterations (at least one
when fuel remains), appends exactly the per-iteration scheduled moves for
measurements `i, i+1, …`, stops before exhausting its fuel only when the
last executed iteration scheduled no move, and never continues past an
iteration that scheduled none. -/
theorem alignLoop_moves (target : Vec3) (ms : Nat → Measurement) :
    ∀ (fuel i : Nat) (acc : AlignAcc),
      ∃ n, (alignLoop target ms fuel i acc).movesPerIter
          = acc.movesPerIter ++ (List.range n).map (fun j => iterMoves target (ms (i + j)))
        ∧ (1 ≤ fuel → 1 ≤ n) ∧ n ≤ fuel
        ∧ (n < fuel → iterMoves target (ms (i + (n - 1))) = [])
        ∧ (∀ j, j + 1 < n → iterMoves target (ms (i + j)) ≠ []) := by
  intro fuel
  induction fuel with
  | zero =>
    intro i acc
    exact ⟨0, by simp [alignLoop], by omega, Nat.le_refl 0, by omega, by omega⟩
  | succ fuel ih =>
    intro i acc
    by_cases hstop : iterMoves target (ms i) = []
    · refine ⟨1, ?_, fun _ => Nat.le_refl 1, by omega, ?_, ?_⟩
      · simp [alignLoop, hstop, alignStepAcc, range_succ_map_shift]
      · intro h1
        simpa using hstop
      · intro j hj
        omega
    · obtain ⟨n, hmoves, hone, hle, hlast, hall⟩ := ih (i + 1) (alignStepAcc target (ms i) acc)
      have hrun : alignLoop target ms (fuel + 1) i acc
          = alignLoop target ms fuel (i + 1) (alignStepAcc target (ms i) acc) := by
        simp [alignLoop, hstop]
      refine ⟨n + 1, ?_, fun _ => by omega, by omega, ?_, ?_⟩
      · rw [hrun, hmoves]
        have hstep : (alignStepAcc target (ms i) acc).movesPerIter
            = acc.movesPerIter ++ [iterMoves target (ms i)] := rfl
        rw [hstep, List.append_assoc, range_succ_map_shift, List.singleton_append]
        refine congrArg (acc.movesPerIter ++ ·) ?_
        refine congrArg₂ List.cons (by simp) ?_
        exact List.map_congr_left
          (fun j _ => by rw [show i + 1 + j = i + (j + 1) from by omega])
      · intro hl
        have hf : 1 ≤ fuel := by omega
        have hn1 : 1 ≤ n := hone hf
        have h' := hlast (by omega)
        rw [show i + (n + 1 - 1) = i + 1 + (n - 1) from by omega]
        exact h'
      · intro j hj
        match j with
        | 0 => simpa using hstop
        | j' + 1 =>
          have h' := hall j' (by omega)
          rw [show i + (j' + 1) = i + 1 + j' from by omega]
          exact h'

/-- Claim C6: the closed-loop aligner executes between 1 and 4 iterations;
iteration `j`'s scheduled corrections are exactly `iterMoves` of the
`j`-th measurement; the loop stops before its 4-iteration bound exactly
after an iteration that scheduled nothing (convergence), and never
continues past one.  Per iteration, a camera-focus correction — moving
the focal plane to the measured tip z, keeping the camera x, y and
issuing no pipette move — is scheduled iff the focus error exceeds 3 µm,
and a manipulator correction — adding the measured lateral offset to the
reported position, x and y only, z unchanged — is scheduled iff the
(squared) lateral target error exceeds (1.5 µm)². -/
theorem aligner_corrections (target : Vec3) (ms : Nat → Measurement) :
    1 ≤ (getPipetteErrorRun target ms).movesPerIter.length
    ∧ (getPipetteErrorRun target ms).movesPerIter.length ≤ 4
    ∧ (getPipetteErrorRun target ms).movesPerIter
        = (List.range (getPipetteErrorRun target ms).movesPerIter.length).map
            (fun j => iterMoves target (ms j))
    ∧ ((getPipetteErrorRun target ms).movesPerIter.length < 4 →
        iterMoves target (ms ((getPipetteErrorRun target ms).movesPerIter.length - 1)) = [])
    ∧ (∀ j, j + 1 < (getPipetteErrorRun target ms).movesPerIter.length →
        iterMoves target (ms j) ≠ [])
    ∧ (∀ m : Measurement,
        ((∃ q, AlignMove.cameraFocus q ∈ iterMoves target m) ↔
          focusThreshold < focusErrorOf m)
        ∧ (∀ q, AlignMove.cameraFocus q ∈ iterMoves target m →
            q = ⟨m.cameraPos.x, m.cameraPos.y, m.measuredPos.z⟩)
        ∧ ((∃ q, AlignMove.pipetteMove q ∈ iterMoves target m) ↔
            correctThresholdSq < targetErrSq target m)
        ∧ (∀ q, AlignMove.pipetteMove q ∈ iterMoves target m →
            q = ⟨m.reportedPos.x + targetDiffX target m,
                 m.reportedPos.y + targetDiffY target m, m.reportedPos.z⟩)
        ∧ (iterMoves target m = [] ↔
            (focusErrorOf m ≤ focusThreshold ∧ targetErrSq target m ≤ correctThresholdSq))) := by
  obtain ⟨n, hmoves, hone, hle, hlast, hall⟩ := alignLoop_moves target ms 4 0 emptyAcc
  have hmoves' : (getPipetteErrorRun target ms).movesPerIter
      = (List.range n).map (fun j => iterMoves target (ms j)) := by
    rw [getPipetteErrorRun, hmoves]
    simp [emptyAcc]
  have hlen : (getPipetteErrorRun target ms).movesPerIter.length = n := by
    rw [hmoves']
    simp
  refine ⟨by omega, by omega, by rw [hlen]; exact hmoves', ?_, ?_, ?_⟩
  · intro hl
    rw [hlen] at hl ⊢
    simpa using hlast hl
  · intro j hj
    rw [hlen] at hj
    simpa using hall j hj
  · intro m
    by_cases hf : focusThreshold < focusErrorOf m <;>
      by_cases ht : correctThresholdSq < targetErrSq target m
    · have he : iterMoves target m
          = [AlignMove.cameraFocus ⟨m.cameraPos.x, m.cameraPos.y, m.measuredPos.z⟩,
             AlignMove.pipetteMove ⟨m.reportedPos.x + targetDiffX target m,
               m.reportedPos.y + targetDiffY target m, m.reportedPos.z⟩] := by
        simp [iterMoves, gt_iff_lt, hf, ht]
      refine ⟨?_, ?_, ?_, ?_, ?_⟩
      · exact iff_of_true (by simp [he]) hf
      · intro q hq; rw [he] at hq; simp at hq; exact hq
      · exact iff_of_true (by simp [he]) ht
      · intro q hq; rw [he] at hq; simp at hq; exact hq
      · exact iff_of_false (by simp [he]) (by simp [not_le.mpr hf])
    · have he : iterMoves target m
          = [AlignMove.cameraFocus ⟨m.cameraPos.x, m.cameraPos.y, m.measuredPos.z⟩] := by
        simp [iterMoves, gt_iff_lt, hf, ht]
      refine ⟨?_, ?_, ?_, ?_, ?_⟩
      · exact iff_of_true (by simp [he]) hf
      · intro q hq; rw [he] at hq; simp at hq; exact hq
      · exact iff_of_false (by simp [he]) ht
      · intro q hq; rw [he] at hq; simp at hq
      · exact iff_of_false (by simp [he]) (by simp [not_le.mpr hf])
    · have he : iterMoves target m
          = [AlignMove.pipetteMove ⟨m.reportedPos.x + targetDiffX target m,
              m.reportedPos.y + targetDiffY target m, m.reportedPos.z⟩] := by
        simp [iterMoves, gt_iff_lt, hf, ht]
      refine ⟨?_, ?_, ?_, ?_, ?_⟩
      · exact iff_of_false (by simp [he]) hf
      · intro q hq; rw [he] at hq; simp at hq
      · exact iff_of_true (by simp [he]) ht
      · intro q hq; rw [he] at hq; simp at hq; exact hq
      · exact iff_of_false (by simp [he]) (by simp [not_le.mpr ht])
    · have he : iterMoves target m = [] := by
        simp [iterMoves, gt_iff_lt, hf, ht]
      refine ⟨?_, ?_, ?_, ?_, ?_⟩
      · exact iff_of_false (by simp [he]) hf
      · intro q hq; rw [he] at hq; simp at hq
      · exact iff_of_false (by simp [he]) ht
      · intro q hq; rw [he] at hq; simp at hq
      · exact iff_of_true he ⟨not_lt.mp hf, not_lt.mp ht⟩

/-- Witness for C6: a perfectly aligned measurement schedules no
correction, and the loop converges after a single iteration. -/
theorem aligner_corrections_witness :
    iterMoves tgtV0 (msPerfect 0) = []
    ∧ (getPipetteErrorRun tgtV0 msPerfect).movesPerIter.length = 1 := by
  have h := aligner_corrections tgtV0 msPerfect
  have h0 : focusErrorOf (msPerfect 0) = 0 := by
    simp [focusErrorOf, msPerfect, mPerfect]
  have h1 : targetErrSq tgtV0 (msPerfect 0) = 0 := by
    simp [targetErrSq, targetDiffX, targetDiffY, msPerfect, mPerfect, tgtV0]
  have hempty : iterMoves tgtV0 (msPerfect 0) = [] :=
    (h.2.2.2.2.2 (msPerfect 0)).2.2.2.2.mpr
      ⟨by rw [h0]; decide, by rw [h1]; decide⟩
  refine ⟨hempty, ?_⟩
  have hge := h.1
  have hnot : ¬ (0 + 1 < (getPipetteErrorRun tgtV0 msPerfect).movesPerIter.length) :=
    fun hlt => (h.2.2.2.2.1 0 hlt) hempty
  omega

end Autopatch
